import Mathlib

/-!
# go-mysql-multi-host: failover connector

A shallow embedding of `mysql-multi-host/mysql_multi_host.go`.

* Go `error` values are the inductive `Error`; `fmt.Errorf("..., %w", err)` is `Error.wrap`.
* The external driver (`mysql.ParseDSN`, `mysql.NewConnector`, the per-host
  `driver.Connector.Connect`, the raw `driver.Conn.Close`) is not part of the
  repository: it enters as function parameters or as fields holding its result.
* Effects are made explicit: every function returns the list of effects it
  performed (`Event` for dialing, `Call` for construction), and timeout scopes
  created by `context.WithTimeout` are numbered by a counter that is threaded
  through the calls, so each scope has an identity.
* `sync.Mutex` is not modelled: the embedding is sequential, and the lock only
  brackets the single read and the single write of `currentIndex`.
* Go `int` is `Int`.  The only arithmetic on it is `(start + i) % len` with
  `0 <= i < len`, which cannot overflow for a cursor inside the slice, and
  `%` is Go's truncated remainder, `Int.tmod`.  `time.Duration` is an `int64`
  count of nanoseconds and its product is wrapped explicitly.
* A Go run-time panic (slice index out of range) is the result `GoResult.panic`.
-/

namespace MysqlMultiHost

/-- Go `error` values: an opaque message (`errors.New`, or an error of the
external driver), or `fmt.Errorf(text + "%w", inner)`. -/
inductive Error where
  | msg (text : String)
  | wrap (text : String) (inner : Error)
deriving DecidableEq, Repr

/-- A raw `driver.Conn` of the external driver: an identity and the value its
`Close()` returns (`none` is Go's `nil` error). -/
structure Conn where
  id : Nat
  Close : Option Error
deriving DecidableEq, Repr

/-- The value `attemptCtx` of `context.WithTimeout(context.Background(), d)`:
the identity of the timeout scope and its duration in nanoseconds. -/
structure Context where
  scope : Nat
  timeout : Int
deriving DecidableEq, Repr

/-- A `context.CancelFunc`: the scope it releases. -/
abbrev CancelFunc := Nat

/-- A `driver.Connector` bound to one host: what its `Connect(ctx)` returns. -/
structure Connector where
  Connect : Context → Except Error Conn

/-- Effects performed by `Connect` and `Close`, in program order. -/
inductive Event where
  | withTimeout (scope : Nat) (timeout : Int)
  | dial (index : Int) (scope : Nat)
  | logf (dsn : String) (err : Error)
  | cancel (scope : Nat)
  | rawClose (conn : Conn)
deriving DecidableEq, Repr

/-- Calls into the external driver made by the constructor, in program order. -/
inductive Call where
  | parseDSN (dsn : String)
  | newConnector (dsn : String)
deriving DecidableEq, Repr

/-- The struct `mysqlMultiHostConnector` (without its mutex). -/
structure mysqlMultiHostConnector where
  connectors : List Connector
  clusterDSNs : List String
  dialTimeout : Int
  currentIndex : Int

/-- The struct `stdDriver`. -/
structure stdDriver where
  currentConn : Conn
  close : CancelFunc
deriving DecidableEq, Repr

/-- What a Go function of type `(T, error)` does: return a value with a nil
error, return a nil value with an error, or panic. -/
inductive GoResult (α : Type) where
  | ok (v : α)
  | err (e : Error)
  | panic (reason : String)
deriving DecidableEq, Repr

/-- Go slice indexing `xs[i]` with an `int` index: `none` is the run-time
panic "index out of range". -/
def sliceAt {α : Type} (xs : List α) (i : Int) : Option α :=
  if i < 0 then none else xs[i.toNat]?

/-- Conversion of an integer to `int64` (two's complement wrap-around). -/
def wrapInt64 (x : Int) : Int :=
  (x + 2 ^ 63) % 2 ^ 64 - 2 ^ 63

/-- The constant `time.Millisecond`, in nanoseconds. -/
def Millisecond : Int := 1000000

/-- The loop `for _, dsn := range clusterDSNs` of `NewMySQLMultiHostConnector`
(lines 28-39): `acc` is the slice `connectors` built so far.  Returns the
early-return error or the finished slice, and the driver calls made. -/
def NewMySQLMultiHostConnector.loop {Config : Type}
    (ParseDSN : String → Except Error Config)
    (NewConnector : Config → Except Error Connector) :
    List String → List Connector → Except Error (List Connector) × List Call
  | [], acc => (.ok acc, [])
  | dsn :: rest, acc =>
    match ParseDSN dsn with
    | .error err =>
      (.error (.wrap "failed to parse mysql multi host dsn, " err), [.parseDSN dsn])
    | .ok cfg =>
      match NewConnector cfg with
      | .error err =>
        (.error (.wrap "failed to create mysql connector, " err),
          [.parseDSN dsn, .newConnector dsn])
      | .ok connector =>
        let r := NewMySQLMultiHostConnector.loop ParseDSN NewConnector rest (acc ++ [connector])
        (r.1, [.parseDSN dsn, .newConnector dsn] ++ r.2)

/-- The function `NewMySQLMultiHostConnector` (lines 22-48).  `.error e` is the
return `nil, e`; `.ok m` is the return `m, nil`. -/
def NewMySQLMultiHostConnector {Config : Type}
    (ParseDSN : String → Except Error Config)
    (NewConnector : Config → Except Error Connector)
    (clusterDSNs : List String) (dialTimeoutMs : Int) :
    Except Error mysqlMultiHostConnector × List Call :=
  if clusterDSNs.length = 0 then
    (.error (.msg "multi host dsn should not be empty"), [])
  else
    match NewMySQLMultiHostConnector.loop ParseDSN NewConnector clusterDSNs [] with
    | (.error e, calls) => (.error e, calls)
    | (.ok connectors, calls) =>
      (.ok { connectors := connectors
             clusterDSNs := clusterDSNs
             dialTimeout := wrapInt64 (wrapInt64 dialTimeoutMs * Millisecond)
             currentIndex := 0 }, calls)

/-- The outcome of one call of `Connect`: the value returned, the receiver
afterwards, the scope counter afterwards and the effects performed. -/
structure ConnectRun where
  result : GoResult stdDriver
  m : mysqlMultiHostConnector
  nextScope : Nat
  events : List Event

/-- The loop `for i := range m.connectors` of `Connect` (lines 58-83), over
the values of `i` still to come; `sc` is the number of the next timeout scope.
The sum `start + i` of line 59 is taken in the integers: it equals Go's `int`
sum whenever the cursor lies inside the slice, where it cannot overflow; for a
cursor within `N` of the largest `int`, Go's sum wraps and this one does not. -/
def mysqlMultiHostConnector.Connect.loop (m : mysqlMultiHostConnector) (start : Int) :
    List Nat → Nat → ConnectRun
  | [], sc =>
    { result := .err (.msg "failed to connect to any of the host provided")
      m := m, nextScope := sc, events := [] }
  | i :: rest, sc =>
    let index := Int.tmod (start + (i : Int)) (m.connectors.length : Int)
    let attemptCtx : Context := { scope := sc, timeout := m.dialTimeout }
    let cancel : CancelFunc := sc
    match sliceAt m.connectors index with
    | none =>
      { result := .panic "index out of range"
        m := m, nextScope := sc + 1
        events := [.withTimeout sc m.dialTimeout] }
    | some connector =>
      match connector.Connect attemptCtx with
      | .error err =>
        match sliceAt m.clusterDSNs index with
        | none =>
          { result := .panic "index out of range"
            m := m, nextScope := sc + 1
            events := [.withTimeout sc m.dialTimeout, .dial index sc] }
        | some dsn =>
          let r := mysqlMultiHostConnector.Connect.loop m start rest (sc + 1)
          { r with
            events := [.withTimeout sc m.dialTimeout, .dial index sc,
                       .logf dsn err, .cancel cancel] ++ r.events }
      | .ok conn =>
        { result := .ok { currentConn := conn, close := cancel }
          m := { m with currentIndex := index }
          nextScope := sc + 1
          events := [.withTimeout sc m.dialTimeout, .dial index sc] }

/-- The method `Connect` (lines 53-84); the caller's `ctx` is not used by the
body and is left out.  `sc` is the number of the next timeout scope. -/
def mysqlMultiHostConnector.Connect (m : mysqlMultiHostConnector) (sc : Nat) : ConnectRun :=
  let start := m.currentIndex
  mysqlMultiHostConnector.Connect.loop m start (List.range m.connectors.length) sc

/-- The method `stdDriver.Close` (lines 105-108): the value returned and the
effects performed. -/
def stdDriver.Close (s : stdDriver) : Option Error × List Event :=
  (s.currentConn.Close, [.cancel s.close, .rawClose s.currentConn])

/-- The test double `MockConnector` of the test file: `Connect` fails with
"connection failed" when `shouldFail`, and returns a `MockConn` otherwise. -/
def MockConnector (shouldFail : Bool) : Connector :=
  { Connect := fun _ =>
      if shouldFail then .error (.msg "connection failed")
      else .ok { id := 0, Close := none } }

/-! ## Observations on effect traces and driver test doubles -/

/-- The hosts dialed, in order: the indices of the `dial` events. -/
def dialed : List Event → List Int
  | [] => []
  | .dial index _ :: es => index :: dialed es
  | _ :: es => dialed es

/-- The timeout scopes within which the dials were made, in order. -/
def dialScopes : List Event → List Nat
  | [] => []
  | .dial _ scope :: es => scope :: dialScopes es
  | _ :: es => dialScopes es

/-- The timeout scopes created, in order. -/
def created : List Event → List Nat
  | [] => []
  | .withTimeout scope _ :: es => scope :: created es
  | _ :: es => created es

/-- The timeout scopes released (their cancel function invoked), in order. -/
def cancelled : List Event → List Nat
  | [] => []
  | .cancel scope :: es => scope :: cancelled es
  | _ :: es => cancelled es

/-- The raw connections closed, in order. -/
def rawClosed : List Event → List Conn
  | [] => []
  | .rawClose conn :: es => conn :: rawClosed es
  | _ :: es => rawClosed es

/-- One step of the scope monitor.  Its state is the scope that is created and
not yet released, if any.  A scope may be created only while no scope is live,
a dial must run within the live scope, and only the live scope may be
released; any other event leaves the state alone.  `none` is a violation. -/
def scopeStep (live : Option Nat) : Event → Option (Option Nat)
  | .withTimeout scope _ => if live = none then some (some scope) else none
  | .dial _ scope => if live = some scope then some live else none
  | .cancel scope => if live = some scope then some none else none
  | _ => some live

/-- Runs the scope monitor over a trace; the result is the scope still live at
the end, or `none` when the trace violates the discipline. -/
def scopeRun : Option Nat → List Event → Option (Option Nat)
  | live, [] => some live
  | live, e :: es =>
    match scopeStep live e with
    | none => none
    | some live1 => scopeRun live1 es

/-- Successive calls of `Connect` on one connector, `n` of them: each entry is
the receiver before the call and the outcome of the call; the next call starts
from the receiver and the scope counter the previous one left. -/
def connectCalls : mysqlMultiHostConnector → Nat → Nat →
    List (mysqlMultiHostConnector × ConnectRun)
  | _, _, 0 => []
  | m, sc, n + 1 =>
    let r := m.Connect sc
    (m, r) :: connectCalls r.m r.nextScope n

/-- A test double for `mysql.ParseDSN` (the configuration is the descriptor
itself): it rejects a descriptor that lacks the slash before the database
name, as the driver does for the descriptor "invalid" of the test file. -/
def stubParseDSN (dsn : String) : Except Error String :=
  if '/' ∈ dsn.data then .ok dsn
  else .error (.msg "invalid DSN: missing the slash separating the database name")

/-- A test double for `mysql.NewConnector` that always succeeds, with a
connector that always connects. -/
def stubNewConnector (_cfg : String) : Except Error Connector :=
  .ok (MockConnector false)

/-- The three well-formed descriptors of the test file. -/
def testDSNs : List String :=
  ["user:password@tcp(localhost:3306)/some_db",
   "user:password@tcp(localhost:3307)/some_db",
   "user:password@tcp(localhost:3308)/some_db"]

/-- A connector over test doubles, as the test file builds it: one
`MockConnector` per entry of `fails`, the descriptors "host1", "host2", ...,
a dial timeout of 3000 ms and the given cursor. -/
def mockSet (fails : List Bool) (cursor : Int) : mysqlMultiHostConnector :=
  { connectors := fails.map MockConnector
    clusterDSNs := (List.range fails.length).map (fun i => "host" ++ toString (i + 1))
    dialTimeout := 3000 * Millisecond
    currentIndex := cursor }

/-- The connector that the constructor builds from `testDSNs` and a timeout of
3000 ms with the test doubles `stubParseDSN` and `stubNewConnector`. -/
def testSet : mysqlMultiHostConnector :=
  { connectors := [MockConnector false, MockConnector false, MockConnector false]
    clusterDSNs := testDSNs
    dialTimeout := 3000 * Millisecond
    currentIndex := 0 }

/-! ## Construction -/

/-- What the driver calls of the constructor loop look like when every
descriptor of `pre` is turned into a connector. -/
theorem NewMySQLMultiHostConnector.loop_append {Config : Type}
    (ParseDSN : String → Except Error Config)
    (NewConnector : Config → Except Error Connector)
    (pre rest : List String) (acc : List Connector)
    (hpre : ∀ x ∈ pre, ∃ cfg c, ParseDSN x = .ok cfg ∧ NewConnector cfg = .ok c) :
    ∃ cs : List Connector, cs.length = pre.length ∧
      NewMySQLMultiHostConnector.loop ParseDSN NewConnector (pre ++ rest) acc =
        ((NewMySQLMultiHostConnector.loop ParseDSN NewConnector rest (acc ++ cs)).1,
          pre.flatMap (fun x => [Call.parseDSN x, Call.newConnector x]) ++
            (NewMySQLMultiHostConnector.loop ParseDSN NewConnector rest (acc ++ cs)).2) := by
  induction pre generalizing acc with
  | nil => exact ⟨[], rfl, by simp⟩
  | cons x xs ih =>
    obtain ⟨cfg, c, hp, hc⟩ := hpre x (List.mem_cons_self _ _)
    obtain ⟨cs, hlen, heq⟩ := ih (acc ++ [c]) (fun y hy => hpre y (List.mem_cons_of_mem _ hy))
    refine ⟨c :: cs, by simp [hlen], ?_⟩
    have hcs : acc ++ [c] ++ cs = acc ++ c :: cs := by simp
    rw [hcs] at heq
    simp only [List.cons_append, NewMySQLMultiHostConnector.loop, hp, hc, List.append_eq,
      heq, List.flatMap_cons, List.nil_append]

/-- A finished constructor loop returns one connector per descriptor, after
the ones it started with. -/
theorem NewMySQLMultiHostConnector.loop_ok_length {Config : Type}
    (ParseDSN : String → Except Error Config)
    (NewConnector : Config → Except Error Connector)
    (dsns : List String) (acc cs : List Connector)
    (h : (NewMySQLMultiHostConnector.loop ParseDSN NewConnector dsns acc).1 = .ok cs) :
    cs.length = acc.length + dsns.length := by
  induction dsns generalizing acc with
  | nil =>
    simp only [NewMySQLMultiHostConnector.loop, Except.ok.injEq] at h
    simp [← h]
  | cons x xs ih =>
    simp only [NewMySQLMultiHostConnector.loop] at h
    split at h
    · simp at h
    · split at h
      · simp at h
      · have := ih _ h
        simp at this
        simp [this]; omega

/-- C6: with an empty endpoint list, whatever the timeout and the driver, the
constructor returns the error "multi host dsn should not be empty" and no
connector, and makes no call into the driver. -/
theorem new_empty_list_fails {Config : Type}
    (ParseDSN : String → Except Error Config)
    (NewConnector : Config → Except Error Connector) (dialTimeoutMs : Int) :
    NewMySQLMultiHostConnector ParseDSN NewConnector [] dialTimeoutMs =
      (.error (.msg "multi host dsn should not be empty"), []) := by
  simp [NewMySQLMultiHostConnector]

/-- A constructor that succeeds was given a non-empty list, keeps it, holds
one connector per descriptor and starts with cursor 0. -/
theorem NewMySQLMultiHostConnector.ok_shape {Config : Type}
    (ParseDSN : String → Except Error Config)
    (NewConnector : Config → Except Error Connector)
    (dsns : List String) (dialTimeoutMs : Int) (m : mysqlMultiHostConnector)
    (h : (NewMySQLMultiHostConnector ParseDSN NewConnector dsns dialTimeoutMs).1 = .ok m) :
    dsns ≠ [] ∧ m.clusterDSNs = dsns ∧ m.connectors.length = dsns.length ∧
      m.currentIndex = 0 := by
  unfold NewMySQLMultiHostConnector at h
  split at h
  · simp at h
  · rename_i hne
    split at h
    · simp at h
    · rename_i cs calls heq
      simp only [Except.ok.injEq] at h
      have hlen := NewMySQLMultiHostConnector.loop_ok_length ParseDSN NewConnector dsns [] cs
        (by rw [heq])
      subst h
      refine ⟨?_, rfl, by simpa using hlen, rfl⟩
      intro hnil
      exact hne (by simp [hnil])

/-- C4 (what the code does): the constructor never looks at the timeout.  With
a non-empty list whose descriptors all parse and all yield a connector, and a
timeout `dialTimeoutMs <= 0`, it returns a connector and no error. -/
theorem new_accepts_nonpositive_timeout {Config : Type}
    (ParseDSN : String → Except Error Config)
    (NewConnector : Config → Except Error Connector)
    (dsns : List String) (dialTimeoutMs : Int)
    (hne : dsns ≠ [])
    (hconv : ∀ x ∈ dsns, ∃ cfg c, ParseDSN x = .ok cfg ∧ NewConnector cfg = .ok c)
    (_ht : dialTimeoutMs ≤ 0) :
    ∃ m : mysqlMultiHostConnector,
      (NewMySQLMultiHostConnector ParseDSN NewConnector dsns dialTimeoutMs).1 = .ok m ∧
      m.clusterDSNs = dsns ∧ m.connectors.length = dsns.length ∧ m.currentIndex = 0 ∧
      m.dialTimeout = wrapInt64 (wrapInt64 dialTimeoutMs * Millisecond) := by
  obtain ⟨cs, hlen, heq⟩ :=
    NewMySQLMultiHostConnector.loop_append ParseDSN NewConnector dsns [] [] hconv
  simp only [List.append_nil, List.nil_append, NewMySQLMultiHostConnector.loop] at heq
  have hlen0 : ¬ dsns.length = 0 := by
    intro h0
    exact hne (List.length_eq_zero.mp h0)
  refine ⟨{ connectors := cs, clusterDSNs := dsns,
            dialTimeout := wrapInt64 (wrapInt64 dialTimeoutMs * Millisecond),
            currentIndex := 0 }, ?_, rfl, hlen, rfl, rfl⟩
  simp only [NewMySQLMultiHostConnector, hlen0, if_false, heq]

/-- C4, at the input of the test "When dialTimeoutMs is less than 0": the three
well-formed descriptors and the timeout 0 give a connector, not an error. -/
theorem new_accepts_nonpositive_timeout_witness :
    ∃ m : mysqlMultiHostConnector,
      (NewMySQLMultiHostConnector stubParseDSN stubNewConnector testDSNs 0).1 = .ok m ∧
      m.clusterDSNs = testDSNs ∧ m.connectors.length = testDSNs.length ∧
      m.currentIndex = 0 ∧ m.dialTimeout = wrapInt64 (wrapInt64 0 * Millisecond) :=
  new_accepts_nonpositive_timeout stubParseDSN stubNewConnector testDSNs 0 (by decide)
    (by
      intro x hx
      simp only [testDSNs, List.mem_cons, List.mem_singleton, List.not_mem_nil, or_false] at hx
      rcases hx with rfl | rfl | rfl <;> exact ⟨_, MockConnector false, rfl, rfl⟩)
    (by decide)

/-- C5: in a non-empty list `pre ++ d :: post` where `d` is the first
descriptor that cannot be turned into a connector (every descriptor of `pre`
before it parses and yields a connector), the constructor returns no
connector, never a partly built set, and the error of `d`: its parse error
wrapped in "failed to parse mysql multi host dsn, " when `ParseDSN` rejects
it, and the error of `NewConnector` wrapped in "failed to create mysql
connector, " should the driver refuse a configuration it parsed.  The driver
calls made are those for `pre` and for `d`: no descriptor after `d` is
parsed. -/
theorem new_stops_at_first_failure {Config : Type}
    (ParseDSN : String → Except Error Config)
    (NewConnector : Config → Except Error Connector)
    (pre : List String) (d : String) (post : List String) (dialTimeoutMs : Int)
    (E : Error) (C : List Call)
    (hpre : ∀ x ∈ pre, ∃ cfg c, ParseDSN x = .ok cfg ∧ NewConnector cfg = .ok c)
    (hd : (∃ e, ParseDSN d = .error e ∧
              E = .wrap "failed to parse mysql multi host dsn, " e ∧
              C = [Call.parseDSN d]) ∨
          (∃ cfg e, ParseDSN d = .ok cfg ∧ NewConnector cfg = .error e ∧
              E = .wrap "failed to create mysql connector, " e ∧
              C = [Call.parseDSN d, Call.newConnector d])) :
    NewMySQLMultiHostConnector ParseDSN NewConnector (pre ++ d :: post) dialTimeoutMs =
      (.error E, pre.flatMap (fun x => [Call.parseDSN x, Call.newConnector x]) ++ C) := by
  obtain ⟨cs, _, heq⟩ :=
    NewMySQLMultiHostConnector.loop_append ParseDSN NewConnector pre (d :: post) [] hpre
  have hlen0 : ¬ (pre ++ d :: post).length = 0 := by simp
  rcases hd with ⟨e, hp, hE, hC⟩ | ⟨cfg, e, hp, hc, hE, hC⟩
  · simp only [NewMySQLMultiHostConnector, hlen0, if_false, heq,
      NewMySQLMultiHostConnector.loop, hp, hE, hC]
  · simp only [NewMySQLMultiHostConnector, hlen0, if_false, heq,
      NewMySQLMultiHostConnector.loop, hp, hc, hE, hC]

/-- C5 at the input of the test "When failed to parse DSN": the
descriptor "invalid" comes first, its parse error is returned wrapped, and it
is the only descriptor parsed. -/
theorem new_stops_at_first_failure_witness :
    NewMySQLMultiHostConnector stubParseDSN stubNewConnector
        ([] ++ "invalid" :: ["user:password@tcp(localhost:3307)/some_db",
                             "user:password@tcp(localhost:3308)/some_db"]) 3000 =
      (.error (.wrap "failed to parse mysql multi host dsn, "
          (.msg "invalid DSN: missing the slash separating the database name")),
        ([] : List String).flatMap (fun x => [Call.parseDSN x, Call.newConnector x]) ++
          [Call.parseDSN "invalid"]) :=
  new_stops_at_first_failure stubParseDSN stubNewConnector [] "invalid" _ 3000 _ _
    (by intro x hx; cases hx)
    (Or.inl ⟨_, rfl, rfl, rfl⟩)

/-! ## Close -/

/-- C7: one call of `Close` on a managed connection performs exactly two
effects, in this order: the cancel function of its timeout scope, then the
close of its raw connection; so each happens exactly once and the cancel comes
first.  The value returned is what the raw connection's close returned. -/
theorem close_cancels_then_closes_raw (s : stdDriver) :
    s.Close.2 = [Event.cancel s.close, Event.rawClose s.currentConn] ∧
    cancelled s.Close.2 = [s.close] ∧
    rawClosed s.Close.2 = [s.currentConn] ∧
    s.Close.1 = s.currentConn.Close := by
  simp [stdDriver.Close, cancelled, rawClosed]

/-! ## Connect: indexing -/

/-- Indexing a slice with a non-negative `int`. -/
theorem sliceAt_natCast {α : Type} (xs : List α) (n : Nat) :
    sliceAt xs (n : Int) = xs[n]? := by
  simp [sliceAt]

/-- Indexing a slice inside its bounds succeeds. -/
theorem sliceAt_isSome {α : Type} (xs : List α) (x : Int) (h0 : 0 ≤ x)
    (h1 : x < (xs.length : Int)) : ∃ v, sliceAt xs x = some v := by
  obtain ⟨n, rfl⟩ := Int.eq_ofNat_of_zero_le h0
  have hn : n < xs.length := by exact_mod_cast h1
  exact ⟨xs[n], by simp [sliceAt_natCast, hn]⟩

/-- Indexing a slice succeeds only inside its bounds. -/
theorem sliceAt_some_bounds {α : Type} (xs : List α) (x : Int) (v : α)
    (h : sliceAt xs x = some v) : 0 ≤ x ∧ x < (xs.length : Int) := by
  unfold sliceAt at h
  split at h
  · cases h
  · rename_i hx
    have h0 : 0 ≤ x := not_lt.mp hx
    obtain ⟨n, rfl⟩ := Int.eq_ofNat_of_zero_le h0
    have hn : n < xs.length := by
      by_contra hge
      simp [List.getElem?_eq_none (not_lt.mp hge)] at h
    exact ⟨h0, by exact_mod_cast hn⟩

/-- Go's `(start + i) % n` on non-negative operands is the remainder of the
natural numbers. -/
theorem tmod_natCast (s i n : Nat) :
    Int.tmod ((s : Int) + (i : Int)) (n : Int) = (((s + i) % n : Nat) : Int) := by
  rw [Int.ofNat_tmod]
  push_cast
  rfl

/-- The index `(start + i) % n` computed by the loop lies inside a non-empty
slice whenever the cursor is not negative. -/
theorem index_in_bounds (start : Int) (i n : Nat) (h0 : 0 ≤ start) (hn : 0 < n) :
    0 ≤ Int.tmod (start + (i : Int)) (n : Int) ∧
      Int.tmod (start + (i : Int)) (n : Int) < (n : Int) := by
  obtain ⟨s, rfl⟩ := Int.eq_ofNat_of_zero_le h0
  rw [tmod_natCast]
  exact ⟨Int.ofNat_nonneg _, by exact_mod_cast Nat.mod_lt _ hn⟩

/-- One iteration of the loop of `Connect` on a connector with as many
descriptors as hosts and a cursor that is not negative: both slice accesses
succeed, and the iteration either logs, releases its scope and continues, or
returns the connection. -/
theorem mysqlMultiHostConnector.Connect.loop_step (m : mysqlMultiHostConnector)
    (start : Int) (hdsn : m.clusterDSNs.length = m.connectors.length)
    (h0 : 0 ≤ start) (hN : 0 < m.connectors.length) (i : Nat) (rest : List Nat) (sc : Nat) :
    ∃ connector dsn,
      sliceAt m.connectors (Int.tmod (start + (i : Int)) (m.connectors.length : Int))
        = some connector ∧
      sliceAt m.clusterDSNs (Int.tmod (start + (i : Int)) (m.connectors.length : Int))
        = some dsn ∧
      ((∃ err, connector.Connect { scope := sc, timeout := m.dialTimeout } = .error err ∧
          mysqlMultiHostConnector.Connect.loop m start (i :: rest) sc =
            { mysqlMultiHostConnector.Connect.loop m start rest (sc + 1) with
              events :=
                Event.withTimeout sc m.dialTimeout ::
                Event.dial (Int.tmod (start + (i : Int)) (m.connectors.length : Int)) sc ::
                Event.logf dsn err :: Event.cancel sc ::
                (mysqlMultiHostConnector.Connect.loop m start rest (sc + 1)).events }) ∨
       (∃ conn, connector.Connect { scope := sc, timeout := m.dialTimeout } = .ok conn ∧
          mysqlMultiHostConnector.Connect.loop m start (i :: rest) sc =
            { result := .ok { currentConn := conn, close := sc }
              m := { m with
                currentIndex := Int.tmod (start + (i : Int)) (m.connectors.length : Int) }
              nextScope := sc + 1
              events :=
                [Event.withTimeout sc m.dialTimeout,
                 Event.dial (Int.tmod (start + (i : Int)) (m.connectors.length : Int)) sc] })) := by
  obtain ⟨hlo, hhi⟩ := index_in_bounds start i m.connectors.length h0 hN
  obtain ⟨connector, hc⟩ := sliceAt_isSome m.connectors _ hlo hhi
  obtain ⟨dsn, hd⟩ := sliceAt_isSome m.clusterDSNs _ hlo (by rw [hdsn]; exact hhi)
  refine ⟨connector, dsn, hc, hd, ?_⟩
  cases hr : connector.Connect { scope := sc, timeout := m.dialTimeout } with
  | error err =>
    left
    exact ⟨err, rfl, by
      simp only [mysqlMultiHostConnector.Connect.loop, hc, hr, hd, List.cons_append,
        List.nil_append]⟩
  | ok conn =>
    right
    exact ⟨conn, rfl, by simp only [mysqlMultiHostConnector.Connect.loop, hc, hr]⟩

/-! ## Connect: the cursor -/

/-- The loop of `Connect` never panics on a connector with as many descriptors
as hosts and a non-negative cursor; it changes nothing but the cursor; when it
returns an error the receiver is untouched, and when it returns a connection
the new cursor is inside the slice. -/
theorem mysqlMultiHostConnector.Connect.loop_cursor (m : mysqlMultiHostConnector)
    (start : Int) (hdsn : m.clusterDSNs.length = m.connectors.length)
    (h0 : 0 ≤ start) (hN : 0 < m.connectors.length) (is : List Nat) (sc : Nat) :
    (∃ e, (mysqlMultiHostConnector.Connect.loop m start is sc).result = .err e ∧
        (mysqlMultiHostConnector.Connect.loop m start is sc).m = m) ∨
    (∃ sd idx, (mysqlMultiHostConnector.Connect.loop m start is sc).result = .ok sd ∧
        (mysqlMultiHostConnector.Connect.loop m start is sc).m =
          { m with currentIndex := idx } ∧
        0 ≤ idx ∧ idx < (m.connectors.length : Int)) := by
  induction is generalizing sc with
  | nil => exact Or.inl ⟨_, rfl, rfl⟩
  | cons i rest ih =>
    obtain ⟨connector, dsn, _, _, hstep⟩ :=
      mysqlMultiHostConnector.Connect.loop_step m start hdsn h0 hN i rest sc
    rcases hstep with ⟨err, _, heq⟩ | ⟨conn, _, heq⟩
    · rw [heq]
      exact ih (sc + 1)
    · rw [heq]
      obtain ⟨hlo, hhi⟩ := index_in_bounds start i m.connectors.length h0 hN
      exact Or.inr ⟨_, _, rfl, rfl, hlo, hhi⟩

/-- One call of `Connect` on a connector with as many descriptors as hosts and
a cursor inside the slice: no panic, hosts and descriptors untouched, the new
cursor inside the slice, and unchanged unless a connection is returned. -/
theorem mysqlMultiHostConnector.Connect_cursor (m : mysqlMultiHostConnector)
    (hdsn : m.clusterDSNs.length = m.connectors.length)
    (h0 : 0 ≤ m.currentIndex) (h1 : m.currentIndex < (m.connectors.length : Int)) (sc : Nat) :
    (m.Connect sc).m.connectors = m.connectors ∧
    (m.Connect sc).m.clusterDSNs = m.clusterDSNs ∧
    0 ≤ (m.Connect sc).m.currentIndex ∧
    (m.Connect sc).m.currentIndex < (m.connectors.length : Int) ∧
    (∀ reason, (m.Connect sc).result ≠ .panic reason) ∧
    ((∀ sd, (m.Connect sc).result ≠ .ok sd) → (m.Connect sc).m = m) := by
  have hN : 0 < m.connectors.length := by
    have : (0 : Int) < (m.connectors.length : Int) := lt_of_le_of_lt h0 h1
    exact_mod_cast this
  unfold mysqlMultiHostConnector.Connect
  rcases mysqlMultiHostConnector.Connect.loop_cursor m m.currentIndex hdsn h0 hN
      (List.range m.connectors.length) sc with ⟨e, hres, hm⟩ | ⟨sd, idx, hres, hm, hlo, hhi⟩
  · rw [hres, hm]
    exact ⟨rfl, rfl, h0, h1, (fun reason h => by cases h), fun _ => rfl⟩
  · rw [hres, hm]
    exact ⟨rfl, rfl, hlo, hhi, (fun reason h => by cases h), fun h => absurd rfl (h sd)⟩

/-- The cursor invariant along successive calls of `Connect`. -/
theorem connectCalls_cursor (N : Nat) (n : Nat) :
    ∀ (m : mysqlMultiHostConnector) (sc : Nat),
      m.connectors.length = N → m.clusterDSNs.length = N →
      0 ≤ m.currentIndex → m.currentIndex < (N : Int) →
      ∀ c ∈ connectCalls m sc n,
        c.2.m.connectors.length = N ∧
        0 ≤ c.2.m.currentIndex ∧ c.2.m.currentIndex < (N : Int) ∧
        (∀ reason, c.2.result ≠ .panic reason) ∧
        (∃ sc1, c.2 = c.1.Connect sc1) ∧
        ((∀ sd, c.2.result ≠ .ok sd) → c.2.m.currentIndex = c.1.currentIndex) := by
  induction n with
  | zero =>
    intro m sc _ _ _ _ c hc
    simp [connectCalls] at hc
  | succ n ih =>
    intro m sc hlen hdsn h0 h1 c hc
    obtain ⟨hcs, hds, hlo, hhi, hpanic, hsame⟩ :=
      mysqlMultiHostConnector.Connect_cursor m (by rw [hdsn, hlen]) h0 (by rw [hlen]; exact h1) sc
    simp only [connectCalls, List.mem_cons] at hc
    rcases hc with rfl | hc
    · refine ⟨by rw [hcs, hlen], hlo, by rw [← hlen]; exact hhi, hpanic, ⟨sc, rfl⟩, ?_⟩
      intro hno
      rw [hsame hno]
    · exact ih (m.Connect sc).m (m.Connect sc).nextScope (by rw [hcs, hlen])
        (by rw [hds, hdsn]) hlo (by rw [← hlen]; exact hhi) c hc

/-- C8: a connector returned by a successful constructor has at least one host
and cursor 0; along any number of successive `Connect` calls on it, whatever
the hosts answer to each dial, no call panics, the number of hosts stays the
same, the cursor satisfies `0 <= currentIndex < N` after each call, and a call
that does not return a connection leaves the cursor where it was before that
call.  Each entry `c` of `connectCalls` is one call: `c.1` is the receiver
before it and `c.2` its outcome. -/
theorem cursor_always_in_range {Config : Type}
    (ParseDSN : String → Except Error Config)
    (NewConnector : Config → Except Error Connector)
    (dsns : List String) (dialTimeoutMs : Int) (m : mysqlMultiHostConnector)
    (hnew : (NewMySQLMultiHostConnector ParseDSN NewConnector dsns dialTimeoutMs).1 = .ok m) :
    1 ≤ m.connectors.length ∧ m.currentIndex = 0 ∧
    ∀ (sc n : Nat), ∀ c ∈ connectCalls m sc n,
      c.2.m.connectors.length = m.connectors.length ∧
      0 ≤ c.2.m.currentIndex ∧ c.2.m.currentIndex < (m.connectors.length : Int) ∧
      (∀ reason, c.2.result ≠ .panic reason) ∧
      (∃ sc1, c.2 = c.1.Connect sc1) ∧
      ((∀ sd, c.2.result ≠ .ok sd) → c.2.m.currentIndex = c.1.currentIndex) := by
  obtain ⟨hne, hds, hlen, hcur⟩ :=
    NewMySQLMultiHostConnector.ok_shape ParseDSN NewConnector dsns dialTimeoutMs m hnew
  have hpos : 1 ≤ m.connectors.length := by
    rw [hlen]
    exact Nat.succ_le_of_lt (List.length_pos.mpr hne)
  refine ⟨hpos, hcur, ?_⟩
  intro sc n c hc
  exact connectCalls_cursor m.connectors.length n m sc rfl (by rw [hds, hlen])
    (by rw [hcur]) (by rw [hcur]; exact_mod_cast hpos) c hc

/-! ## Connect: timeout scopes -/

/-- The scope bookkeeping of the loop of `Connect`, for any list of iterations:
the scopes created are the consecutive numbers from the counter, one per dial,
and each dial runs within its own; the trace obeys the scope monitor; on an
error every scope created was released and every iteration dialed; on success
the scopes created are the released ones followed by the one handed out. -/
theorem mysqlMultiHostConnector.Connect.loop_scopes (m : mysqlMultiHostConnector)
    (start : Int) (hdsn : m.clusterDSNs.length = m.connectors.length)
    (h0 : 0 ≤ start) (hN : 0 < m.connectors.length) (is : List Nat) (sc : Nat) :
    created (mysqlMultiHostConnector.Connect.loop m start is sc).events =
      List.range' sc (dialed (mysqlMultiHostConnector.Connect.loop m start is sc).events).length ∧
    dialScopes (mysqlMultiHostConnector.Connect.loop m start is sc).events =
      created (mysqlMultiHostConnector.Connect.loop m start is sc).events ∧
    (∀ e, (mysqlMultiHostConnector.Connect.loop m start is sc).result = .err e →
      cancelled (mysqlMultiHostConnector.Connect.loop m start is sc).events =
        created (mysqlMultiHostConnector.Connect.loop m start is sc).events ∧
      (dialed (mysqlMultiHostConnector.Connect.loop m start is sc).events).length = is.length ∧
      scopeRun none (mysqlMultiHostConnector.Connect.loop m start is sc).events = some none) ∧
    (∀ sd, (mysqlMultiHostConnector.Connect.loop m start is sc).result = .ok sd →
      created (mysqlMultiHostConnector.Connect.loop m start is sc).events =
        cancelled (mysqlMultiHostConnector.Connect.loop m start is sc).events ++ [sd.close] ∧
      scopeRun none (mysqlMultiHostConnector.Connect.loop m start is sc).events =
        some (some sd.close)) := by
  induction is generalizing sc with
  | nil =>
    simp [mysqlMultiHostConnector.Connect.loop, created, dialed, dialScopes, cancelled,
      scopeRun]
  | cons i rest ih =>
    obtain ⟨connector, dsn, _, _, hstep⟩ :=
      mysqlMultiHostConnector.Connect.loop_step m start hdsn h0 hN i rest sc
    rcases hstep with ⟨err, _, heq⟩ | ⟨conn, _, heq⟩
    · obtain ⟨hcr, hds, herr, hok⟩ := ih (sc + 1)
      rw [heq]
      refine ⟨?_, ?_, ?_, ?_⟩
      · simp only [created, dialed, List.length_cons, List.range'_succ, hcr]
      · simp only [created, dialScopes, hds]
      · intro e he
        obtain ⟨h1, h2, h3⟩ := herr e he
        refine ⟨?_, ?_, ?_⟩
        · simp only [created, cancelled, h1]
        · simp only [dialed, List.length_cons, h2]
        · simp only [scopeRun, scopeStep, if_true, h3]
      · intro sd hsd
        obtain ⟨h1, h2⟩ := hok sd hsd
        refine ⟨?_, ?_⟩
        · simp only [created, cancelled, h1, List.cons_append]
        · simp only [scopeRun, scopeStep, if_true, h2]
    · rw [heq]
      refine ⟨?_, ?_, ?_, ?_⟩
      · simp [created, dialed, List.range']
      · simp [created, dialScopes]
      · intro e he
        cases he
      · intro sd hsd
        injection hsd with hsd
        subst hsd
        refine ⟨?_, ?_⟩
        · simp [created, cancelled]
        · simp [scopeRun, scopeStep]

/-- C10: in one call of `Connect` on a connector with as many descriptors as
hosts and a cursor inside the slice, `0 <= currentIndex < N`: the call does
not panic, so it returns an error or a connection.  The timeout scopes created
are fresh (the consecutive numbers from the scope counter), one per dial, and
each dial runs within its own scope; the trace obeys the scope monitor, so a
scope is created only after the previous one was released.  When `Connect`
returns an error, all `N` scopes were created, each was released exactly once
and none is live at the return.  When it returns a connection, its cancel
function is the scope of the last dial, the only scope still live: `Connect`
never released it, and released every other scope exactly once. -/
theorem connect_scope_discipline (m : mysqlMultiHostConnector)
    (hdsn : m.clusterDSNs.length = m.connectors.length)
    (h0 : 0 ≤ m.currentIndex) (h1 : m.currentIndex < (m.connectors.length : Int))
    (sc : Nat) :
    created (m.Connect sc).events = List.range' sc (dialed (m.Connect sc).events).length ∧
    dialScopes (m.Connect sc).events = created (m.Connect sc).events ∧
    (∀ e, (m.Connect sc).result = .err e →
      (created (m.Connect sc).events).length = m.connectors.length ∧
      (∀ s ∈ created (m.Connect sc).events, (cancelled (m.Connect sc).events).count s = 1) ∧
      cancelled (m.Connect sc).events = created (m.Connect sc).events ∧
      scopeRun none (m.Connect sc).events = some none) ∧
    (∀ sd, (m.Connect sc).result = .ok sd →
      (created (m.Connect sc).events).getLast? = some sd.close ∧
      (dialScopes (m.Connect sc).events).getLast? = some sd.close ∧
      (cancelled (m.Connect sc).events).count sd.close = 0 ∧
      (∀ s ∈ created (m.Connect sc).events, s ≠ sd.close →
        (cancelled (m.Connect sc).events).count s = 1) ∧
      created (m.Connect sc).events = cancelled (m.Connect sc).events ++ [sd.close] ∧
      scopeRun none (m.Connect sc).events = some (some sd.close)) ∧
    (∀ reason, (m.Connect sc).result ≠ .panic reason) ∧
    ((∃ e, (m.Connect sc).result = .err e) ∨ (∃ sd, (m.Connect sc).result = .ok sd)) := by
  have hN : 0 < m.connectors.length := by
    have : (0 : Int) < (m.connectors.length : Int) := lt_of_le_of_lt h0 h1
    exact_mod_cast this
  have hnopanic : ∀ reason, (m.Connect sc).result ≠ .panic reason :=
    (mysqlMultiHostConnector.Connect_cursor m hdsn h0 h1 sc).2.2.2.2.1
  have hcases : (∃ e, (m.Connect sc).result = .err e) ∨
      (∃ sd, (m.Connect sc).result = .ok sd) := by
    cases hr : (m.Connect sc).result with
    | ok sd => exact Or.inr ⟨sd, rfl⟩
    | err e => exact Or.inl ⟨e, rfl⟩
    | panic reason => exact absurd hr (hnopanic reason)
  obtain ⟨hcr, hds, herr, hok⟩ :=
    mysqlMultiHostConnector.Connect.loop_scopes m m.currentIndex hdsn h0 hN
      (List.range m.connectors.length) sc
  have hnd : (created (m.Connect sc).events).Nodup := by
    unfold mysqlMultiHostConnector.Connect
    rw [hcr]
    exact List.nodup_range' _ _
  refine ⟨hcr, hds, ?_, ?_, hnopanic, hcases⟩
  · intro e he
    obtain ⟨hc, hlen, hrun⟩ := herr e he
    have hc1 : cancelled (m.Connect sc).events = created (m.Connect sc).events := hc
    refine ⟨?_, ?_, hc1, hrun⟩
    · have hcr1 : created (m.Connect sc).events =
          List.range' sc (dialed (m.Connect sc).events).length := hcr
      have hlen1 : (dialed (m.Connect sc).events).length =
          (List.range m.connectors.length).length := hlen
      rw [hcr1, List.length_range', hlen1, List.length_range]
    · intro s hs
      rw [hc1]
      exact List.count_eq_one_of_mem hnd hs
  · intro sd hsd
    obtain ⟨hc, hrun⟩ := hok sd hsd
    have hc1 : created (m.Connect sc).events =
        cancelled (m.Connect sc).events ++ [sd.close] := hc
    have hds1 : dialScopes (m.Connect sc).events = created (m.Connect sc).events := hds
    rw [hc1] at hnd
    have hnotin : sd.close ∉ cancelled (m.Connect sc).events := by
      intro hmem
      have := (List.nodup_append.mp hnd).2.2
      exact this hmem (List.mem_singleton_self _)
    refine ⟨by rw [hc1]; simp, by rw [hds1, hc1]; simp,
      List.count_eq_zero_of_not_mem hnotin, ?_, hc1, hrun⟩
    intro s hs hne
    rw [hc1] at hs
    rcases List.mem_append.mp hs with hs | hs
    · exact List.count_eq_one_of_mem (List.nodup_append.mp hnd).1 hs
    · exact absurd (List.mem_singleton.mp hs) hne

/-! ## Connect: which host is chosen -/

/-- Indexing a slice with a non-negative `int` is list lookup. -/
theorem sliceAt_eq_getElem {α : Type} (xs : List α) (x : Int) (h0 : 0 ≤ x) :
    sliceAt xs x = xs[x.toNat]? := by
  simp [sliceAt, not_lt.mpr h0]

/-- When every host visited fails, the loop of `Connect` dials each of them in
turn and returns the final error, leaving the receiver as it was. -/
theorem mysqlMultiHostConnector.Connect.loop_all_fail (m : mysqlMultiHostConnector)
    (start : Int) (hdsn : m.clusterDSNs.length = m.connectors.length)
    (h0 : 0 ≤ start) (hN : 0 < m.connectors.length) (ok : Nat → Bool)
    (hok : ∀ (i : Nat) (c : Connector), m.connectors[i]? = some c →
      ∀ ctx, (c.Connect ctx).toBool = ok i)
    (is : List Nat) (sc : Nat)
    (hfail : ∀ i ∈ is,
      ok (Int.tmod (start + (i : Int)) (m.connectors.length : Int)).toNat = false) :
    (mysqlMultiHostConnector.Connect.loop m start is sc).result =
        .err (.msg "failed to connect to any of the host provided") ∧
    (mysqlMultiHostConnector.Connect.loop m start is sc).m = m ∧
    dialed (mysqlMultiHostConnector.Connect.loop m start is sc).events =
      is.map (fun i : Nat => Int.tmod (start + (i : Int)) (m.connectors.length : Int)) := by
  induction is generalizing sc with
  | nil => exact ⟨rfl, rfl, rfl⟩
  | cons i rest ih =>
    obtain ⟨connector, dsn, hc, _, hstep⟩ :=
      mysqlMultiHostConnector.Connect.loop_step m start hdsn h0 hN i rest sc
    obtain ⟨hlo, _⟩ := index_in_bounds start i m.connectors.length h0 hN
    rw [sliceAt_eq_getElem _ _ hlo] at hc
    have hb := hok _ _ hc { scope := sc, timeout := m.dialTimeout }
    rw [hfail i (List.mem_cons_self _ _)] at hb
    rcases hstep with ⟨err, _, heq⟩ | ⟨conn, hconn, _⟩
    · obtain ⟨h1, h2, h3⟩ := ih (sc + 1) (fun t ht => hfail t (List.mem_cons_of_mem _ ht))
      rw [heq]
      refine ⟨h1, h2, ?_⟩
      simp only [dialed, List.map_cons, h3]
    · rw [hconn] at hb
      simp [Except.toBool] at hb

/-- When the hosts visited first all fail and the next one succeeds, the loop
of `Connect` dials exactly those hosts, returns a connection and moves the
cursor to the host that succeeded. -/
theorem mysqlMultiHostConnector.Connect.loop_first_ok (m : mysqlMultiHostConnector)
    (start : Int) (hdsn : m.clusterDSNs.length = m.connectors.length)
    (h0 : 0 ≤ start) (hN : 0 < m.connectors.length) (ok : Nat → Bool)
    (hok : ∀ (i : Nat) (c : Connector), m.connectors[i]? = some c →
      ∀ ctx, (c.Connect ctx).toBool = ok i)
    (pre : List Nat) (j : Nat) (post : List Nat) (sc : Nat)
    (hpre : ∀ i ∈ pre,
      ok (Int.tmod (start + (i : Int)) (m.connectors.length : Int)).toNat = false)
    (hj : ok (Int.tmod (start + (j : Int)) (m.connectors.length : Int)).toNat = true) :
    (∃ sd, (mysqlMultiHostConnector.Connect.loop m start (pre ++ j :: post) sc).result
        = .ok sd) ∧
    (mysqlMultiHostConnector.Connect.loop m start (pre ++ j :: post) sc).m =
      { m with currentIndex := Int.tmod (start + (j : Int)) (m.connectors.length : Int) } ∧
    dialed (mysqlMultiHostConnector.Connect.loop m start (pre ++ j :: post) sc).events =
      (pre ++ [j]).map
        (fun i : Nat => Int.tmod (start + (i : Int)) (m.connectors.length : Int)) := by
  induction pre generalizing sc with
  | nil =>
    obtain ⟨connector, dsn, hc, _, hstep⟩ :=
      mysqlMultiHostConnector.Connect.loop_step m start hdsn h0 hN j post sc
    obtain ⟨hlo, _⟩ := index_in_bounds start j m.connectors.length h0 hN
    rw [sliceAt_eq_getElem _ _ hlo] at hc
    have hb := hok _ _ hc { scope := sc, timeout := m.dialTimeout }
    rw [hj] at hb
    rcases hstep with ⟨err, herr, _⟩ | ⟨conn, _, heq⟩
    · rw [herr] at hb
      simp [Except.toBool] at hb
    · rw [List.nil_append, heq]
      exact ⟨⟨_, rfl⟩, rfl, by simp [dialed]⟩
  | cons i pre ih =>
    obtain ⟨connector, dsn, hc, _, hstep⟩ :=
      mysqlMultiHostConnector.Connect.loop_step m start hdsn h0 hN i (pre ++ j :: post) sc
    obtain ⟨hlo, _⟩ := index_in_bounds start i m.connectors.length h0 hN
    rw [sliceAt_eq_getElem _ _ hlo] at hc
    have hb := hok _ _ hc { scope := sc, timeout := m.dialTimeout }
    rw [hpre i (List.mem_cons_self _ _)] at hb
    rcases hstep with ⟨err, _, heq⟩ | ⟨conn, hconn, _⟩
    · obtain ⟨h1, h2, h3⟩ := ih (sc + 1) (fun t ht => hpre t (List.mem_cons_of_mem _ ht))
      rw [List.cons_append, heq]
      refine ⟨h1, h2, ?_⟩
      simp only [dialed, List.cons_append, List.map_cons, h3]
    · rw [hconn] at hb
      simp [Except.toBool] at hb

/-- The list `0, ..., N-1` split at one of its members. -/
theorem range_split (N j : Nat) (hj : j < N) :
    ∃ post, List.range N = List.range j ++ j :: post := by
  have hN : N = j + ((N - j - 1) + 1) := by omega
  refine ⟨(List.map Nat.succ (List.range (N - j - 1))).map (j + ·), ?_⟩
  conv_lhs => rw [hN]
  rw [List.range_add, List.range_succ_eq_map]
  simp

/-- Rotation by the cursor is one-to-one on the offsets `0, ..., N-1`. -/
theorem rotation_injective (s N a b : Nat) (ha : a < N) (hb : b < N)
    (h : (s + a) % N = (s + b) % N) : a = b := by
  have h1 : s + a ≡ s + b [MOD N] := h
  exact Nat.ModEq.eq_of_lt_of_lt (Nat.ModEq.add_left_cancel' s h1) ha hb

/-- Every host is reached from the cursor by some offset below `N`. -/
theorem rotation_surjective (s N i : Nat) (hs : s < N) (hi : i < N) :
    (i + N - s) % N < N ∧ (s + (i + N - s) % N) % N = i := by
  have hN : 0 < N := by omega
  refine ⟨Nat.mod_lt _ hN, ?_⟩
  rw [Nat.add_mod_mod]
  have : s + (i + N - s) = i + N := by omega
  rw [this, Nat.add_mod_right, Nat.mod_eq_of_lt hi]

/-- What one call of `Connect` does, in terms of which hosts accept a dial
(`ok i` for host `i`, the same for every timeout scope) and of the cursor `s`:
either no host accepts, and the call dials all of them in rotation order and
returns the final error with the receiver untouched; or `j` is the least
offset whose host `(s + j) % N` accepts, and the call dials the hosts at
offsets `0, ..., j`, returns a connection and moves the cursor to that host. -/
theorem mysqlMultiHostConnector.Connect_outcome (m : mysqlMultiHostConnector)
    (hdsn : m.clusterDSNs.length = m.connectors.length)
    (s : Nat) (hs : m.currentIndex = (s : Int)) (hsN : s < m.connectors.length)
    (ok : Nat → Bool)
    (hok : ∀ (i : Nat) (c : Connector), m.connectors[i]? = some c →
      ∀ ctx, (c.Connect ctx).toBool = ok i)
    (sc : Nat) :
    ((∀ i, i < m.connectors.length → ok i = false) ∧
      (m.Connect sc).result = .err (.msg "failed to connect to any of the host provided") ∧
      (m.Connect sc).m = m ∧
      dialed (m.Connect sc).events =
        (List.range m.connectors.length).map
          (fun t : Nat => (((s + t) % m.connectors.length : Nat) : Int))) ∨
    (∃ j, j < m.connectors.length ∧ ok ((s + j) % m.connectors.length) = true ∧
      (∀ t, t < j → ok ((s + t) % m.connectors.length) = false) ∧
      (∃ sd, (m.Connect sc).result = .ok sd) ∧
      (m.Connect sc).m =
        { m with currentIndex := (((s + j) % m.connectors.length : Nat) : Int) } ∧
      dialed (m.Connect sc).events =
        (List.range (j + 1)).map
          (fun t : Nat => (((s + t) % m.connectors.length : Nat) : Int))) := by
  have h0 : 0 ≤ m.currentIndex := by rw [hs]; exact Int.ofNat_nonneg _
  have hN : 0 < m.connectors.length := by omega
  have hrot : ∀ t : Nat,
      Int.tmod (m.currentIndex + (t : Int)) (m.connectors.length : Int) =
        (((s + t) % m.connectors.length : Nat) : Int) := by
    intro t
    rw [hs]
    exact tmod_natCast s t _
  unfold mysqlMultiHostConnector.Connect
  by_cases hex : ∃ j, j < m.connectors.length ∧ ok ((s + j) % m.connectors.length) = true
  · right
    classical
    have hspec := Nat.find_spec hex
    have hmin : ∀ t, t < Nat.find hex → ok ((s + t) % m.connectors.length) = false := by
      intro t ht
      have hnot := Nat.find_min hex ht
      have htN : t < m.connectors.length := lt_trans ht hspec.1
      cases hv : ok ((s + t) % m.connectors.length) with
      | false => rfl
      | true => exact absurd ⟨htN, hv⟩ hnot
    obtain ⟨post, hsplit⟩ := range_split m.connectors.length (Nat.find hex) hspec.1
    obtain ⟨h1, h2, h3⟩ :=
      mysqlMultiHostConnector.Connect.loop_first_ok m m.currentIndex hdsn h0 hN ok hok
        (List.range (Nat.find hex)) (Nat.find hex) post sc
        (by
          intro i hi
          rw [hrot, Int.toNat_ofNat]
          exact hmin i (List.mem_range.mp hi))
        (by
          rw [hrot, Int.toNat_ofNat]
          exact hspec.2)
    rw [← hsplit] at h1 h2 h3
    refine ⟨Nat.find hex, hspec.1, hspec.2, hmin, h1, ?_, ?_⟩
    · rw [h2, hrot]
    · rw [h3, List.range_succ]
      simp only [hrot]
  · left
    have hnone : ∀ j, j < m.connectors.length →
        ok ((s + j) % m.connectors.length) = false := by
      intro j hj
      cases hv : ok ((s + j) % m.connectors.length) with
      | false => rfl
      | true => exact absurd ⟨j, hj, hv⟩ hex
    obtain ⟨h1, h2, h3⟩ :=
      mysqlMultiHostConnector.Connect.loop_all_fail m m.currentIndex hdsn h0 hN ok hok
        (List.range m.connectors.length) sc
        (by
          intro i hi
          rw [hrot, Int.toNat_ofNat]
          exact hnone i (List.mem_range.mp hi))
    refine ⟨?_, h1, h2, ?_⟩
    · intro i hi
      obtain ⟨hlt, heq⟩ := rotation_surjective s m.connectors.length i hsN hi
      have := hnone _ hlt
      rw [heq] at this
      exact this
    · rw [h3]
      simp only [hrot]

/-- The remainder `(start + t) mod N` of the integers, for a cursor that is a
natural number. -/
theorem emod_natCast (s t n : Nat) :
    ((s : Int) + (t : Int)) % (n : Int) = (((s + t) % n : Nat) : Int) := by
  push_cast
  rfl

/-- C2: on a connector with `N >= 1` hosts, as many descriptors, and a cursor
`0 <= start < N`, when every host refuses every dial, `Connect` returns no
connection and the error "failed to connect to any of the host provided"; the
cursor (indeed the whole receiver) is as before the call, and all `N` hosts
were dialed, in rotation order from the cursor. -/
theorem connect_all_hosts_fail (m : mysqlMultiHostConnector)
    (hdsn : m.clusterDSNs.length = m.connectors.length)
    (h0 : 0 ≤ m.currentIndex) (h1 : m.currentIndex < (m.connectors.length : Int))
    (sc : Nat)
    (hfail : ∀ c ∈ m.connectors, ∀ ctx, ∃ err, c.Connect ctx = .error err) :
    (m.Connect sc).result = .err (.msg "failed to connect to any of the host provided") ∧
    (m.Connect sc).m.currentIndex = m.currentIndex ∧
    (m.Connect sc).m = m ∧
    dialed (m.Connect sc).events =
      (List.range m.connectors.length).map
        (fun t : Nat => (m.currentIndex + (t : Int)) % (m.connectors.length : Int)) := by
  obtain ⟨s, hs⟩ := Int.eq_ofNat_of_zero_le h0
  have hsN : s < m.connectors.length := by
    rw [hs] at h1
    exact_mod_cast h1
  have hok : ∀ (i : Nat) (c : Connector), m.connectors[i]? = some c →
      ∀ ctx, (c.Connect ctx).toBool = (fun _ => false) i := by
    intro i c hc ctx
    obtain ⟨err, herr⟩ := hfail c (List.getElem?_mem hc) ctx
    rw [herr]
    rfl
  rcases mysqlMultiHostConnector.Connect_outcome m hdsn s hs hsN (fun _ => false) hok sc with
    ⟨_, hres, hm, hd⟩ | ⟨j, _, hj, _⟩
  · refine ⟨hres, by rw [hm], hm, ?_⟩
    rw [hd, hs]
    simp only [emod_natCast]
  · cases hj

/-- The hosts at the first offsets of the rotation are pairwise different. -/
theorem rotation_nodup (s N n : Nat) (hn : n ≤ N) :
    ((List.range n).map (fun t : Nat => (((s + t) % N : Nat) : Int))).Nodup := by
  refine List.Nodup.map_on ?_ (List.nodup_range n)
  intro a ha b hb hab
  have hab1 : (s + a) % N = (s + b) % N := by exact_mod_cast hab
  exact rotation_injective s N a b (lt_of_lt_of_le (List.mem_range.mp ha) hn)
    (lt_of_lt_of_le (List.mem_range.mp hb) hn) hab1

/-- C1: on a connector with `N >= 1` hosts, as many descriptors, and a cursor
`0 <= start < N`, when host `k < N` accepts every dial and every other host
refuses every dial, `Connect` returns a connection and no error and leaves the
cursor equal to `k`; the hosts it dialed are `(start + t) mod N` for
`t = 0, ..., j` in this order, where `j < N` is the offset of `k` from the
cursor, so the last one is `k` and there are at most `N` dials. -/
theorem connect_reaches_only_live_host (m : mysqlMultiHostConnector)
    (hdsn : m.clusterDSNs.length = m.connectors.length)
    (h0 : 0 ≤ m.currentIndex) (h1 : m.currentIndex < (m.connectors.length : Int))
    (sc : Nat) (k : Nat) (hk : k < m.connectors.length)
    (hgood : ∀ c, m.connectors[k]? = some c → ∀ ctx, ∃ conn, c.Connect ctx = .ok conn)
    (hbad : ∀ (i : Nat) (c : Connector), i ≠ k → m.connectors[i]? = some c →
      ∀ ctx, ∃ err, c.Connect ctx = .error err) :
    (∃ sd, (m.Connect sc).result = .ok sd) ∧
    (m.Connect sc).m.currentIndex = (k : Int) ∧
    ∃ j : Nat, j < m.connectors.length ∧
      (m.currentIndex + (j : Int)) % (m.connectors.length : Int) = (k : Int) ∧
      dialed (m.Connect sc).events =
        (List.range (j + 1)).map
          (fun t : Nat => (m.currentIndex + (t : Int)) % (m.connectors.length : Int)) ∧
      (dialed (m.Connect sc).events).length ≤ m.connectors.length := by
  obtain ⟨s, hs⟩ := Int.eq_ofNat_of_zero_le h0
  have hsN : s < m.connectors.length := by
    rw [hs] at h1
    exact_mod_cast h1
  have hok : ∀ (i : Nat) (c : Connector), m.connectors[i]? = some c →
      ∀ ctx, (c.Connect ctx).toBool = (fun i => decide (i = k)) i := by
    intro i c hc ctx
    by_cases hik : i = k
    · subst hik
      obtain ⟨conn, hconn⟩ := hgood c hc ctx
      rw [hconn]
      simp [Except.toBool]
    · obtain ⟨err, herr⟩ := hbad i c hik hc ctx
      rw [herr]
      simp [Except.toBool, hik]
  rcases mysqlMultiHostConnector.Connect_outcome m hdsn s hs hsN (fun i => decide (i = k))
      hok sc with ⟨hall, _⟩ | ⟨j, hjN, hj, _, hres, hm, hd⟩
  · have := hall k hk
    simp at this
  · have hjk : (s + j) % m.connectors.length = k := by simpa using hj
    refine ⟨hres, by rw [hm, hjk], j, hjN, ?_, ?_, ?_⟩
    · rw [hs, emod_natCast, hjk]
    · rw [hd, hs]
      simp only [emod_natCast]
    · rw [hd, List.length_map, List.length_range]
      omega

/-- C9: on a connector with `N >= 1` hosts, as many descriptors, and a cursor
`0 <= start < N`, for every assignment `ok` of dial outcomes to hosts:
`Connect` returns a connection exactly when some host accepts; when it does,
there is a least offset `j < N` whose host `(start + j) mod N` accepts, the
cursor is moved to that host, and the hosts dialed are those at offsets
`0, ..., j`, that is `j + 1` dials; and in every call, successful or not, no
host is dialed twice. -/
theorem connect_picks_first_live_host (m : mysqlMultiHostConnector)
    (hdsn : m.clusterDSNs.length = m.connectors.length)
    (h0 : 0 ≤ m.currentIndex) (h1 : m.currentIndex < (m.connectors.length : Int))
    (sc : Nat) (ok : Nat → Bool)
    (hok : ∀ (i : Nat) (c : Connector), m.connectors[i]? = some c →
      ∀ ctx, (c.Connect ctx).toBool = ok i) :
    ((∃ sd, (m.Connect sc).result = .ok sd) ↔ ∃ i, i < m.connectors.length ∧ ok i = true) ∧
    (∀ sd, (m.Connect sc).result = .ok sd →
      ∃ j : Nat, j < m.connectors.length ∧
        ok ((m.currentIndex + (j : Int)) % (m.connectors.length : Int)).toNat = true ∧
        (∀ t : Nat, t < j →
          ok ((m.currentIndex + (t : Int)) % (m.connectors.length : Int)).toNat = false) ∧
        (m.Connect sc).m.currentIndex =
          (m.currentIndex + (j : Int)) % (m.connectors.length : Int) ∧
        dialed (m.Connect sc).events =
          (List.range (j + 1)).map
            (fun t : Nat => (m.currentIndex + (t : Int)) % (m.connectors.length : Int)) ∧
        (dialed (m.Connect sc).events).length = j + 1) ∧
    (dialed (m.Connect sc).events).Nodup := by
  obtain ⟨s, hs⟩ := Int.eq_ofNat_of_zero_le h0
  have hsN : s < m.connectors.length := by
    rw [hs] at h1
    exact_mod_cast h1
  have hN : 0 < m.connectors.length := by omega
  rcases mysqlMultiHostConnector.Connect_outcome m hdsn s hs hsN ok hok sc with
    ⟨hall, hres, _, hd⟩ | ⟨j, hjN, hj, hmin, hres, hm, hd⟩
  · refine ⟨⟨?_, ?_⟩, ?_, ?_⟩
    · rintro ⟨sd, hsd⟩
      rw [hres] at hsd
      cases hsd
    · rintro ⟨i, hi, hoki⟩
      rw [hall i hi] at hoki
      cases hoki
    · intro sd hsd
      rw [hres] at hsd
      cases hsd
    · rw [hd]
      exact rotation_nodup s _ _ (le_refl _)
  · refine ⟨⟨fun _ => ⟨_, Nat.mod_lt _ hN, hj⟩, fun _ => hres⟩, ?_, ?_⟩
    · intro sd _
      refine ⟨j, hjN, ?_, ?_, ?_, ?_, ?_⟩
      · rw [hs, emod_natCast, Int.toNat_ofNat]
        exact hj
      · intro t ht
        rw [hs, emod_natCast, Int.toNat_ofNat]
        exact hmin t ht
      · rw [hm, hs, emod_natCast]
      · rw [hd, hs]
        simp only [emod_natCast]
      · rw [hd, List.length_map, List.length_range]
    · rw [hd]
      exact rotation_nodup s _ _ (by omega)

/-! ## Connect: stickiness -/

/-- The last element of a list with one more element in front. -/
theorem getLast?_cons_of_some {α : Type} (x y : α) (l : List α)
    (h : l.getLast? = some y) : (x :: l).getLast? = some y := by
  cases l with
  | nil => simp at h
  | cons z zs => simpa [List.getLast?_cons_cons] using h

/-- Whatever the state of the connector, a loop of `Connect` that returns a
connection has moved the cursor to the host it dialed last, and that host lies
inside the slice. -/
theorem mysqlMultiHostConnector.Connect.loop_ok_last (m : mysqlMultiHostConnector)
    (start : Int) (sd : stdDriver) (is : List Nat) (sc : Nat)
    (hres : (mysqlMultiHostConnector.Connect.loop m start is sc).result = .ok sd) :
    ∃ idx : Int,
      (mysqlMultiHostConnector.Connect.loop m start is sc).m =
        { m with currentIndex := idx } ∧
      (dialed (mysqlMultiHostConnector.Connect.loop m start is sc).events).getLast?
        = some idx ∧
      0 ≤ idx ∧ idx < (m.connectors.length : Int) := by
  induction is generalizing sc with
  | nil =>
    simp [mysqlMultiHostConnector.Connect.loop] at hres
  | cons i rest ih =>
    cases hc : sliceAt m.connectors
        (Int.tmod (start + (i : Int)) (m.connectors.length : Int)) with
    | none =>
      simp [mysqlMultiHostConnector.Connect.loop, hc] at hres
    | some connector =>
      cases hconn : connector.Connect { scope := sc, timeout := m.dialTimeout } with
      | error err =>
        cases hd : sliceAt m.clusterDSNs
            (Int.tmod (start + (i : Int)) (m.connectors.length : Int)) with
        | none =>
          simp [mysqlMultiHostConnector.Connect.loop, hc, hconn, hd] at hres
        | some dsn =>
          simp only [mysqlMultiHostConnector.Connect.loop, hc, hconn, hd] at hres ⊢
          obtain ⟨idx, h1, h2, h3, h4⟩ := ih (sc + 1) hres
          refine ⟨idx, h1, ?_, h3, h4⟩
          simp only [List.cons_append, List.nil_append, dialed]
          exact getLast?_cons_of_some _ _ _ h2
      | ok conn =>
        simp only [mysqlMultiHostConnector.Connect.loop, hc, hconn]
        obtain ⟨hlo, hhi⟩ := sliceAt_some_bounds _ _ _ hc
        exact ⟨_, rfl, by simp [dialed], hlo, hhi⟩

/-- The first host `Connect` dials is the one under the cursor, when the cursor
lies inside the slice of hosts. -/
theorem mysqlMultiHostConnector.Connect_first_dial (m : mysqlMultiHostConnector)
    (h0 : 0 ≤ m.currentIndex) (h1 : m.currentIndex < (m.connectors.length : Int))
    (sc : Nat) :
    (dialed (m.Connect sc).events).head? = some m.currentIndex := by
  have hN : 0 < m.connectors.length := by
    have : (0 : Int) < (m.connectors.length : Int) := lt_of_le_of_lt h0 h1
    exact_mod_cast this
  obtain ⟨c, hc⟩ := sliceAt_isSome m.connectors m.currentIndex h0 h1
  have hidx : Int.tmod (m.currentIndex + ((0 : Nat) : Int)) (m.connectors.length : Int)
      = m.currentIndex := by
    simp only [Nat.cast_zero, add_zero]
    exact Int.tmod_eq_of_lt h0 h1
  have hr : List.range m.connectors.length =
      0 :: List.map Nat.succ (List.range (m.connectors.length - 1)) := by
    have : m.connectors.length = (m.connectors.length - 1) + 1 := by omega
    conv_lhs => rw [this]
    exact List.range_succ_eq_map _
  unfold mysqlMultiHostConnector.Connect
  rw [hr]
  simp only [mysqlMultiHostConnector.Connect.loop, hidx, hc]
  split
  · split <;> simp [dialed]
  · simp [dialed]

/-- C3: whatever the state of the connector and whatever the hosts answer, if
a call of `Connect` returns a connection, obtained from host `k` (the host
dialed last in that call), then the next call of `Connect` on the resulting
receiver dials host `k` first. -/
theorem next_connect_dials_last_success_first (m : mysqlMultiHostConnector)
    (sc : Nat) (sd : stdDriver) (k : Int)
    (hres : (m.Connect sc).result = .ok sd)
    (hk : (dialed (m.Connect sc).events).getLast? = some k) :
    (m.Connect sc).m.currentIndex = k ∧
    ∀ sc1, (dialed ((m.Connect sc).m.Connect sc1).events).head? = some k := by
  obtain ⟨idx, hm, hlast, hlo, hhi⟩ :=
    mysqlMultiHostConnector.Connect.loop_ok_last m m.currentIndex sd
      (List.range m.connectors.length) sc hres
  have hm1 : (m.Connect sc).m = { m with currentIndex := idx } := hm
  have hlast1 : (dialed (m.Connect sc).events).getLast? = some idx := hlast
  rw [hk] at hlast1
  injection hlast1 with hki
  subst hki
  refine ⟨by rw [hm1], ?_⟩
  intro sc1
  have := mysqlMultiHostConnector.Connect_first_dial (m.Connect sc).m
    (by rw [hm1]; exact hlo) (by rw [hm1]; exact hhi) sc1
  rw [this, hm1]

/-! ## The scenarios of the specification and of the test file -/

/-- C1 on the scenario "3 hosts, only index 1 connects, cursor 0": the call
returns a connection, the cursor becomes 1, and hosts 0 and 1 are dialed. -/
theorem connect_reaches_only_live_host_witness :
    (∃ sd, ((mockSet [true, false, true] 0).Connect 0).result = .ok sd) ∧
    ((mockSet [true, false, true] 0).Connect 0).m.currentIndex = ((1 : Nat) : Int) ∧
    ∃ j : Nat, j < (mockSet [true, false, true] 0).connectors.length ∧
      ((mockSet [true, false, true] 0).currentIndex + (j : Int)) %
        ((mockSet [true, false, true] 0).connectors.length : Int) = ((1 : Nat) : Int) ∧
      dialed ((mockSet [true, false, true] 0).Connect 0).events =
        (List.range (j + 1)).map
          (fun t : Nat => ((mockSet [true, false, true] 0).currentIndex + (t : Int)) %
            ((mockSet [true, false, true] 0).connectors.length : Int)) ∧
      (dialed ((mockSet [true, false, true] 0).Connect 0).events).length ≤
        (mockSet [true, false, true] 0).connectors.length :=
  connect_reaches_only_live_host (mockSet [true, false, true] 0) rfl (by decide) (by decide)
    0 1 (by decide)
    (by
      intro c hc ctx
      simp only [mockSet, List.map_cons, List.getElem?_cons_succ, List.getElem?_cons_zero,
        Option.some.injEq] at hc
      subst hc
      exact ⟨_, rfl⟩)
    (by
      intro i c hik hc ctx
      match i, hik, hc with
      | 0, _, hc =>
        simp only [mockSet, List.map_cons, List.getElem?_cons_zero, Option.some.injEq] at hc
        subst hc
        exact ⟨_, rfl⟩
      | 1, hik, _ => exact absurd rfl hik
      | 2, _, hc =>
        simp only [mockSet, List.map_cons, List.getElem?_cons_succ, List.getElem?_cons_zero,
          Option.some.injEq] at hc
        subst hc
        exact ⟨_, rfl⟩
      | n + 3, _, hc => simp [mockSet] at hc)

/-- C2 on the scenario "2 hosts, both fail, cursor 0": the call returns the
final error, the cursor stays 0, and hosts 0 and 1 are dialed. -/
theorem connect_all_hosts_fail_witness :
    ((mockSet [true, true] 0).Connect 0).result =
      .err (.msg "failed to connect to any of the host provided") ∧
    ((mockSet [true, true] 0).Connect 0).m.currentIndex = (mockSet [true, true] 0).currentIndex ∧
    ((mockSet [true, true] 0).Connect 0).m = mockSet [true, true] 0 ∧
    dialed ((mockSet [true, true] 0).Connect 0).events =
      (List.range (mockSet [true, true] 0).connectors.length).map
        (fun t : Nat => ((mockSet [true, true] 0).currentIndex + (t : Int)) %
          ((mockSet [true, true] 0).connectors.length : Int)) :=
  connect_all_hosts_fail (mockSet [true, true] 0) rfl (by decide) (by decide) 0
    (by
      intro c hc ctx
      simp only [mockSet, List.map_cons, List.map_nil, List.mem_cons, List.mem_singleton,
        List.not_mem_nil, or_false, or_self] at hc
      subst hc
      exact ⟨_, rfl⟩)

/-- C3 on the scenario "2 hosts, the first fails, cursor 0": the call connects
to host 1, and the next call dials host 1 first. -/
theorem next_connect_dials_last_success_first_witness :
    ((mockSet [true, false] 0).Connect 0).result =
      .ok { currentConn := { id := 0, Close := none }, close := 1 } ∧
    (dialed ((mockSet [true, false] 0).Connect 0).events).getLast? = some 1 ∧
    ((mockSet [true, false] 0).Connect 0).m.currentIndex = 1 ∧
    (dialed (((mockSet [true, false] 0).Connect 0).m.Connect 2).events).head? = some 1 :=
  ⟨rfl, rfl,
    (next_connect_dials_last_success_first (mockSet [true, false] 0) 0
      { currentConn := { id := 0, Close := none }, close := 1 } 1 rfl rfl).1,
    (next_connect_dials_last_success_first (mockSet [true, false] 0) 0
      { currentConn := { id := 0, Close := none }, close := 1 } 1 rfl rfl).2 2⟩

/-- C8 on the connector built from the three descriptors of the test file:
it has three hosts and cursor 0, and the second of two successive calls leaves
the cursor inside the slice. -/
theorem cursor_always_in_range_witness :
    (NewMySQLMultiHostConnector stubParseDSN stubNewConnector testDSNs 3000).1 = .ok testSet ∧
    1 ≤ testSet.connectors.length ∧ testSet.currentIndex = 0 ∧
    ((testSet.Connect 0).m.Connect 1).m.connectors.length = testSet.connectors.length ∧
    0 ≤ ((testSet.Connect 0).m.Connect 1).m.currentIndex ∧
    ((testSet.Connect 0).m.Connect 1).m.currentIndex < (testSet.connectors.length : Int) :=
  ⟨rfl,
    (cursor_always_in_range stubParseDSN stubNewConnector testDSNs 3000 testSet rfl).1,
    (cursor_always_in_range stubParseDSN stubNewConnector testDSNs 3000 testSet rfl).2.1,
    ((cursor_always_in_range stubParseDSN stubNewConnector testDSNs 3000 testSet rfl).2.2
      0 2 ((testSet.Connect 0).m, (testSet.Connect 0).m.Connect 1)
      (List.mem_cons_of_mem _ (List.mem_cons_self _ _))).1,
    ((cursor_always_in_range stubParseDSN stubNewConnector testDSNs 3000 testSet rfl).2.2
      0 2 ((testSet.Connect 0).m, (testSet.Connect 0).m.Connect 1)
      (List.mem_cons_of_mem _ (List.mem_cons_self _ _))).2.1,
    ((cursor_always_in_range stubParseDSN stubNewConnector testDSNs 3000 testSet rfl).2.2
      0 2 ((testSet.Connect 0).m, (testSet.Connect 0).m.Connect 1)
      (List.mem_cons_of_mem _ (List.mem_cons_self _ _))).2.2.1⟩

/-- C9 on three hosts of which only host 0 connects, with the cursor at 1: the
call connects; the least offset is 2, so hosts 1, 2, 0 are dialed, the cursor
becomes 0, and no host is dialed twice. -/
theorem connect_picks_first_live_host_witness :
    ((∃ sd, ((mockSet [false, true, true] 1).Connect 0).result = .ok sd) ↔
      ∃ i, i < (mockSet [false, true, true] 1).connectors.length ∧ (i == 0) = true) ∧
    (∃ j : Nat, j < (mockSet [false, true, true] 1).connectors.length ∧
      ((((mockSet [false, true, true] 1).currentIndex + (j : Int)) %
        ((mockSet [false, true, true] 1).connectors.length : Int)).toNat == 0) = true ∧
      (∀ t : Nat, t < j →
        ((((mockSet [false, true, true] 1).currentIndex + (t : Int)) %
          ((mockSet [false, true, true] 1).connectors.length : Int)).toNat == 0) = false) ∧
      ((mockSet [false, true, true] 1).Connect 0).m.currentIndex =
        ((mockSet [false, true, true] 1).currentIndex + (j : Int)) %
          ((mockSet [false, true, true] 1).connectors.length : Int) ∧
      dialed ((mockSet [false, true, true] 1).Connect 0).events =
        (List.range (j + 1)).map
          (fun t : Nat => ((mockSet [false, true, true] 1).currentIndex + (t : Int)) %
            ((mockSet [false, true, true] 1).connectors.length : Int)) ∧
      (dialed ((mockSet [false, true, true] 1).Connect 0).events).length = j + 1) ∧
    (dialed ((mockSet [false, true, true] 1).Connect 0).events).Nodup :=
  have hok : ∀ (i : Nat) (c : Connector),
      (mockSet [false, true, true] 1).connectors[i]? = some c →
      ∀ ctx, (c.Connect ctx).toBool = (fun i : Nat => i == 0) i := by
    intro i c hc ctx
    match i, hc with
    | 0, hc =>
      simp only [mockSet, List.map_cons, List.getElem?_cons_zero, Option.some.injEq] at hc
      subst hc
      rfl
    | 1, hc =>
      simp only [mockSet, List.map_cons, List.getElem?_cons_succ, List.getElem?_cons_zero,
        Option.some.injEq] at hc
      subst hc
      rfl
    | 2, hc =>
      simp only [mockSet, List.map_cons, List.getElem?_cons_succ, List.getElem?_cons_zero,
        Option.some.injEq] at hc
      subst hc
      rfl
    | n + 3, hc => simp [mockSet] at hc
  ⟨(connect_picks_first_live_host (mockSet [false, true, true] 1) rfl (by decide) (by decide)
      0 (fun i : Nat => i == 0) hok).1,
    (connect_picks_first_live_host (mockSet [false, true, true] 1) rfl (by decide) (by decide)
      0 (fun i : Nat => i == 0) hok).2.1
      { currentConn := { id := 0, Close := none }, close := 2 } rfl,
    (connect_picks_first_live_host (mockSet [false, true, true] 1) rfl (by decide) (by decide)
      0 (fun i : Nat => i == 0) hok).2.2⟩

/-- C10 on the scenario "2 hosts, the first fails, cursor 0", with the scope
counter at 10: the call does not panic; scopes 10 and 11 are created, one per
dial; scope 10 is released once, scope 11 is never released and is the cancel
function of the connection returned. -/
theorem connect_scope_discipline_witness :
    created ((mockSet [true, false] 0).Connect 10).events =
      List.range' 10 (dialed ((mockSet [true, false] 0).Connect 10).events).length ∧
    dialScopes ((mockSet [true, false] 0).Connect 10).events =
      created ((mockSet [true, false] 0).Connect 10).events ∧
    (created ((mockSet [true, false] 0).Connect 10).events).getLast? = some 11 ∧
    (dialScopes ((mockSet [true, false] 0).Connect 10).events).getLast? = some 11 ∧
    (cancelled ((mockSet [true, false] 0).Connect 10).events).count 11 = 0 ∧
    (cancelled ((mockSet [true, false] 0).Connect 10).events).count 10 = 1 ∧
    created ((mockSet [true, false] 0).Connect 10).events =
      cancelled ((mockSet [true, false] 0).Connect 10).events ++ [11] ∧
    scopeRun none ((mockSet [true, false] 0).Connect 10).events = some (some 11) ∧
    ((mockSet [true, false] 0).Connect 10).result ≠ .panic "index out of range" :=
  have h := connect_scope_discipline (mockSet [true, false] 0) rfl (by decide) (by decide) 10
  have hsd := h.2.2.2.1 { currentConn := { id := 0, Close := none }, close := 11 } rfl
  ⟨h.1, h.2.1, hsd.1, hsd.2.1, hsd.2.2.1, hsd.2.2.2.1 10 (by decide) (by decide),
    hsd.2.2.2.2.1, hsd.2.2.2.2.2, h.2.2.2.2.1 "index out of range"⟩

end MysqlMultiHost
